import Mathlib

/-!
Verification of the PDF section-extraction and annotation pipeline of
`pdf_compressor` (`pdf_utils.py`), as a shallow embedding in Lean 4.

Coordinates are modelled as rationals (the Python code works with floats,
but every claim under study only uses `min`, `max`, `abs`, `+`, `-` and
comparisons on small exactly-representable values, on which float and
rational arithmetic agree).  Python string operations (`split`, `strip`,
`replace`) are re-implemented on `List Char` with Python's semantics so
that every definition is executable by the kernel.
-/

namespace PdfCompressor

/-! ## Python string primitives -/

/-- Python `str.split(sep)` for a single-character separator: split at every
occurrence of `c`, keeping empty pieces (so the result is always nonempty). -/
def splitCharList (c : Char) : List Char → List (List Char)
  | [] => [[]]
  | x :: xs =>
    let r := splitCharList c xs
    if x = c then [] :: r
    else
      match r with
      | [] => [[x]]
      | y :: ys => (x :: y) :: ys

/-- Split a char list at every char satisfying `p`, keeping empty pieces. -/
def splitPredList (p : Char → Bool) : List Char → List (List Char)
  | [] => [[]]
  | x :: xs =>
    let r := splitPredList p xs
    if p x then [] :: r
    else
      match r with
      | [] => [[x]]
      | y :: ys => (x :: y) :: ys

/-- Python `str.split('\n')`. -/
def pySplitLines (s : String) : List String :=
  (splitCharList (Char.ofNat 10) s.data).map fun l => ⟨l⟩

/-- Python `str.split()` (no argument): split on whitespace runs and drop
empty pieces. -/
def pySplit (s : String) : List String :=
  ((splitPredList Char.isWhitespace s.data).filter fun l => l ≠ []).map fun l => ⟨l⟩

/-- Python `str.strip()`: drop leading and trailing whitespace. -/
def stripList (l : List Char) : List Char :=
  ((l.dropWhile Char.isWhitespace).reverse.dropWhile Char.isWhitespace).reverse

/-- Python `str.strip()` on strings. -/
def pyStrip (s : String) : String := ⟨stripList s.data⟩

/-- Replace every (leftmost, non-overlapping) occurrence of the nonempty
pattern `p :: ps` by `rep`, as Python `str.replace` does.  Structural
recursion on a fuel argument so the kernel can evaluate it; each step
consumes at least one character, so fuel `l.length` never runs out. -/
def replaceAux (p : Char) (ps rep : List Char) : Nat → List Char → List Char
  | _, [] => []
  | 0, l => l
  | fuel + 1, x :: xs =>
    if (p :: ps).isPrefixOf (x :: xs) then
      rep ++ replaceAux p ps rep fuel (xs.drop ps.length)
    else
      x :: replaceAux p ps rep fuel xs

/-- Python `str.replace(pat, rep)` (for the nonempty patterns the code uses;
an empty pattern leaves the string unchanged here). -/
def pyReplace (pat rep s : String) : String :=
  match pat.data with
  | [] => s
  | p :: ps => ⟨replaceAux p ps rep.data s.data.length s.data⟩

/-- Python `len(s.split())`, the word count used by the summarizer gate. -/
def wordCount (s : String) : Nat := (pySplit s).length

/-! ## Data model -/

/-- A bounding box `(x0, y0, x1, y1)` in page coordinates. -/
structure Box where
  x0 : ℚ
  y0 : ℚ
  x1 : ℚ
  y1 : ℚ
deriving DecidableEq, Repr

/-- Coordinate-wise min/max union of two boxes, as computed at
`pdf_utils.py:76-81`. -/
def boxUnion (a b : Box) : Box :=
  ⟨min a.x0 b.x0, min a.y0 b.y0, max a.x1 b.x1, max a.y1 b.y1⟩

/-- A positioned text fragment as delivered by the `visitor_body` callback
(`pdf_utils.py:55-61`): a text run with its approximate bounding box. -/
structure Fragment where
  text : String
  box : Box
deriving DecidableEq, Repr

/-- `PDFSection` (`pdf_utils.py:39-44`): grouped text, its page, its bounding
box, and the summary (empty until assigned). -/
structure PDFSection where
  text : String
  page : Nat
  position : Box
  summary : String := ""
deriving DecidableEq, Repr

instance : Inhabited Box := ⟨⟨0, 0, 0, 0⟩⟩

/-! ## Section builder (`extract_text_with_positions`, `pdf_utils.py:65-90`) -/

/-- The loop state of the grouping loop: `current_text`, `current_position`
(`None` before the first fragment), and the sections emitted so far. -/
structure GroupState where
  currentText : String
  currentPos : Option Box
  secs : List PDFSection
deriving Repr

/-- One iteration of the fragment-grouping loop (`pdf_utils.py:69-86`).
If `current_position` is unset it is seeded with the fragment's box; then the
fragment is merged into the accumulator when its `y0` is within the proximity
threshold 20 of the accumulator's `y0`, and otherwise the accumulator is
closed as a `PDFSection` (trimmed text, only when the untrimmed buffer is
nonempty) and restarted from the fragment. -/
def groupStep (page : Nat) (st : GroupState) (f : Fragment) : GroupState :=
  let cp := st.currentPos.getD f.box
  if |f.box.y0 - cp.y0| < 20 then
    { st with
      currentText := st.currentText ++ " " ++ f.text
      currentPos := some (boxUnion cp f.box) }
  else
    { currentText := f.text
      currentPos := some f.box
      secs :=
        if st.currentText = "" then st.secs
        else st.secs ++ [{ text := pyStrip st.currentText, page := page,
                           position := cp, summary := "" }] }

/-- Grouping of one page's fragments into sections, including the final flush
of the open accumulator (`pdf_utils.py:88-90`). -/
def buildPage (page : Nat) (frags : List Fragment) : List PDFSection :=
  let st := frags.foldl (groupStep page) ⟨"", none, []⟩
  if st.currentText = "" then st.secs
  else st.secs ++ [{ text := pyStrip st.currentText, page := page,
                     position := st.currentPos.getD default, summary := "" }]

/-- The whole extractor: pages are processed in ascending order and their
sections concatenated (`pdf_utils.py:52-92`). -/
def extractSections (pages : List (List Fragment)) : List PDFSection :=
  (pages.enum.map fun pf => buildPage pf.1 pf.2).flatten

/-! ## Summarizer adapter (`summarize_text`, `pdf_utils.py:102-117`, and the
dispatch loop of `process_pdf_with_summaries`, `pdf_utils.py:308-319`)

The external OpenAI call is opaque I/O; it is modelled by an oracle
`o : Nat → Except String String` giving, for the section with global index
`j`, either the response content or the exception message of a failed call. -/

/-- `summarize_text` body: on success return the response content stripped,
on any exception log and return the fixed sentinel string.  The `try/except`
of `pdf_utils.py:104-117` means the coroutine always returns a string — this
total function is exactly that behaviour. -/
def summarizeText (r : Except String String) : String :=
  match r with
  | .ok content => pyStrip content
  | .error _ => "Error generating summary"

/-- Global indices of the sections for which the dispatch loop
(`pdf_utils.py:310-315`) issues an external summarizer call: exactly those
with a word count strictly above 20. -/
def scheduledIdxs (sections : List PDFSection) : List Nat :=
  ((sections.enum.filter fun js => 20 < wordCount js.2.text).map fun js => js.1)

/-- The summary assignment performed by `pdf_utils.py:310-319`: a section
with more than 20 words receives the (oracle-mediated) summarizer result,
any other section receives its own text. -/
def assignSummaries (o : Nat → Except String String) (sections : List PDFSection) :
    List PDFSection :=
  sections.enum.map fun js =>
    if 20 < wordCount js.2.text then { js.2 with summary := summarizeText (o js.1) }
    else { js.2 with summary := js.2.text }

/-! ## Annotation objects (`pdf_utils.py:241-300`) -/

/-- The fields of the `/Highlight` dictionary built by
`create_highlight_annotation` (`pdf_utils.py:241-268`). -/
structure HighlightAnnot where
  rect : Box
  quadPoints : List ℚ
  color : ℚ × ℚ × ℚ
  opacity : ℚ
deriving DecidableEq, Repr

/-- `create_highlight_annotation`: rectangle equal to the given box, quad
points from its corners, fixed yellow colour and 0.3 opacity. -/
def createHighlightAnnot (rect : Box) : HighlightAnnot :=
  { rect := rect
    quadPoints := [rect.x0, rect.y1, rect.x1, rect.y1, rect.x0, rect.y0, rect.x1, rect.y0]
    color := (1, 9/10, 1/5)
    opacity := 3/10 }

/-- The fields of the `/Square` dictionary built by
`create_number_annotation` (`pdf_utils.py:270-300`). -/
structure NumberAnnot where
  rect : Box
  contents : String
  color : ℚ × ℚ × ℚ
deriving DecidableEq, Repr

/-- `create_number_annotation`: a 16×16 box at `position` whose `/Contents`
is the decimal rendering of `number`. -/
def createNumberAnnot (number : Nat) (position : ℚ × ℚ) : NumberAnnot :=
  { rect := ⟨position.1, position.2, position.1 + 16, position.2 + 16⟩
    contents := toString number
    color := (1/5, 2/5, 4/5) }

/-- An entry of the per-page `annotations` list. -/
inductive Annot where
  | highlight : HighlightAnnot → Annot
  | numberBox : NumberAnnot → Annot
deriving DecidableEq, Repr

/-- The `annotations` list built for output page `i` by the loop at
`pdf_utils.py:331-345`.  Note the loop body creates a highlight and a number
annot for EVERY section `(j, section)` of the document — the
`section.page == i` test only guards the `page_sections` list, so the page
index `_i` is never consulted when building this list. -/
def pageAnnots (sections : List PDFSection) (_i : Nat) : List Annot :=
  sections.enum.foldl
    (fun acc js =>
      acc ++ [Annot.highlight (createHighlightAnnot js.2.position),
              Annot.numberBox (createNumberAnnot js.1
                (js.2.position.x1 + 5, js.2.position.y1 - 15))])
    []

/-- The `page_sections` list built for output page `i`
(`pdf_utils.py:335-337`): the `(j, section)` pairs whose section lies on page
`i` and has a truthy (nonempty) summary. -/
def pageSections (sections : List PDFSection) (i : Nat) : List (Nat × PDFSection) :=
  sections.enum.filter fun js => js.2.page == i && js.2.summary != ""

/-! ## Sidebar renderer (`create_summary_sidebar`, `pdf_utils.py:119-239`)

The renderer is parametrised by the width measure `c.stringWidth(·, font,
size)`; for each of the two fonts used this is an abstract function
`String → ℕ` (reportlab's `stringWidth` is a sum of per-glyph advance
widths; the claims only compare it with the column width, so natural-number
widths lose nothing the claims need). -/

/-- The greedy word-wrap loop used for both titles (`pdf_utils.py:186-200`)
and bodies (`pdf_utils.py:217-231`): split into words, append the next word
to the running line when the widened line still fits, otherwise flush the
running line (if nonempty) and restart from the word; flush the final line
if nonempty. -/
def wrapStep (width : String → ℕ) (maxWidth : ℕ) (st : List String × String)
    (word : String) : List String × String :=
  let testLine := st.2 ++ (if st.2 ≠ "" then " " else "") ++ word
  if width testLine ≤ maxWidth then (st.1, testLine)
  else ((if st.2 ≠ "" then st.1 ++ [st.2] else st.1), word)

def wrapLine (width : String → ℕ) (maxWidth : ℕ) (text : String) : List String :=
  let st := (pySplit text).foldl (wrapStep width maxWidth) ([], "")
  if st.2 ≠ "" then st.1 ++ [st.2] else st.1

/-- The width measure: reportlab's `stringWidth` is the sum of per-glyph
advance widths for the given font and size, abstracted here by a per-char
width `cw`. -/
def strWidth (cw : Char → ℕ) (s : String) : ℕ := (s.data.map cw).sum

/-- The title/body split of `pdf_utils.py:153-156`: split the summary at
newlines; the title is the first part with `"Title: "` occurrences removed;
the body is the second part with `"Summary: "` removed when a second part
exists, and otherwise the whole summary. -/
def splitSummary (summary : String) : String × String :=
  let parts := pySplitLines summary
  (pyReplace "Title: " "" (parts.headD ""),
   if 1 < parts.length then pyReplace "Summary: " "" ((parts.get? 1).getD "")
   else summary)

/-- The available text width of the sidebar column:
`SIDEBAR_WIDTH - (text_x - LEFT_MARGIN + 5)` with `text_x = 40+10+10+8`
(`pdf_utils.py:180,189`). -/
def sidebarMaxWidth : ℕ := 107

/-- One rendered sidebar entry: the displayed number and the wrapped
title/body lines. -/
structure SidebarEntry where
  number : String
  title : String
  content : String
  wrappedTitle : List String
  wrappedContent : List String
deriving DecidableEq, Repr

/-- The entries drawn by `create_summary_sidebar` (`pdf_utils.py:149-239`)
for the given `summaries` list (the `page_sections` pairs): entries with a
falsy (empty) summary are skipped but still consume their index `i`; the
displayed number is `str(i + 1)`. -/
def sidebarEntries (wT wC : String → ℕ) (summaries : List (Nat × PDFSection)) :
    List SidebarEntry :=
  summaries.enum.filterMap fun ip =>
    if ip.2.2.summary = "" then none
    else
      let tc := splitSummary ip.2.2.summary
      some { number := toString (ip.1 + 1)
             title := tc.1
             content := tc.2
             wrappedTitle := wrapLine wT sidebarMaxWidth tc.1
             wrappedContent := wrapLine wC sidebarMaxWidth tc.2 }

/-! ## Page composition (`process_pdf_with_summaries`, `pdf_utils.py:321-379`) -/

/-- An output page: the original page's content (abstract, carried through
`writer.add_page` and mutated only by overlays), the annots attached to it,
and the sidebar entries merged onto it (empty when `page_sections` was
empty and no sidebar canvas was produced). -/
structure OutputPage (α : Type) where
  content : α
  annots : List Annot
  sidebar : List SidebarEntry
deriving Repr

/-- The page loop of `pdf_utils.py:326-372`: every original page is added to
the writer in order, receives the annots list for its index, and receives a
sidebar overlay exactly when `page_sections` is nonempty. -/
def composePages {α : Type} (wT wC : String → ℕ) (pages : List α)
    (sections : List PDFSection) : List (OutputPage α) :=
  pages.enum.map fun ip =>
    { content := ip.2
      annots := pageAnnots sections ip.1
      sidebar :=
        if pageSections sections ip.1 = [] then []
        else sidebarEntries wT wC (pageSections sections ip.1) }

/-! ## Scheduling trace (`pdf_utils.py:308-326`)

The dispatch and await structure of `process_pdf_with_summaries` is modelled
as the trace of events in program order: the first loop creates a task
(`asyncio.create_task`) for every section above the word threshold, the
second loop awaits each of those tasks, and only then does composition
start. -/

/-- Events of the summarization schedule. -/
inductive Ev where
  | start : Nat → Ev
  | awaitTask : Nat → Ev
  | compose : Ev
deriving DecidableEq, Repr

/-- The event trace of `process_pdf_with_summaries` in program order:
all task creations (first loop, `pdf_utils.py:310-315`), then all awaits
(second loop, `pdf_utils.py:318-319`), then composition
(`pdf_utils.py:321-`). -/
def summaryTrace (sections : List PDFSection) : List Ev :=
  (scheduledIdxs sections).map Ev.start
    ++ ((scheduledIdxs sections).map Ev.awaitTask ++ [Ev.compose])

/-! ## General lemmas -/

theorem boxUnion_self (b : Box) : boxUnion b b = b := by
  simp [boxUnion]

theorem str_empty_append (s : String) : "" ++ s = s := by
  apply String.ext
  rw [String.data_append]
  rfl

theorem str_append_ne_empty_left (a b : String) (ha : a ≠ "") : a ++ b ≠ "" := by
  intro h
  apply ha
  have hd := congrArg String.data h
  rw [String.data_append] at hd
  have : a.data = [] := (List.append_eq_nil.mp hd).1
  apply String.ext
  simpa using this

theorem space_append_ne_empty (s : String) : " " ++ s ≠ "" := by
  intro h
  have := congrArg String.data h
  rw [String.data_append] at this
  simp at this

/-- The summary assigned at index `j`: the (oracle-mediated) summarizer
result when the section was scheduled, its own text otherwise. -/
theorem assignSummaries_getElem (sections : List PDFSection)
    (o : Nat → Except String String) (j : Nat) (s : PDFSection)
    (hj : sections[j]? = some s) :
    (assignSummaries o sections)[j]? =
      some { s with
             summary := if 20 < wordCount s.text then summarizeText (o j)
                        else s.text } := by
  rw [assignSummaries, List.getElem?_map, List.getElem?_enum, hj]
  by_cases hc : 20 < wordCount s.text <;> simp [hc]

/-- An index is scheduled for an external call iff its section's word count
exceeds 20. -/
theorem mem_scheduledIdxs (sections : List PDFSection) (j : Nat) (s : PDFSection)
    (hj : sections[j]? = some s) :
    j ∈ scheduledIdxs sections ↔ 20 < wordCount s.text := by
  constructor
  · intro hmem
    rcases List.mem_map.mp hmem with ⟨⟨j', s'⟩, hjs, hfst⟩
    rcases List.mem_filter.mp hjs with ⟨hmem2, hp⟩
    cases hfst
    have hget : sections[j']? = some s' := List.mk_mem_enum_iff_getElem?.mp hmem2
    rw [hj] at hget
    have hss : s' = s := Option.some.inj hget.symm
    subst hss
    exact of_decide_eq_true hp
  · intro hlt
    refine List.mem_map.mpr ⟨(j, s), List.mem_filter.mpr ?_, rfl⟩
    exact ⟨List.mk_mem_enum_iff_getElem?.mpr hj, decide_eq_true hlt⟩

theorem foldl_append_acc {α β : Type _} (f : α → List β) (l : List α) (acc : List β) :
    l.foldl (fun a x => a ++ f x) acc = acc ++ l.flatMap f := by
  induction l generalizing acc with
  | nil => simp
  | cons x xs ih => simp [ih, List.append_assoc]

/-- The annot list of a page, as the flattened per-section pairs. -/
theorem pageAnnots_eq (sections : List PDFSection) (p : Nat) :
    pageAnnots sections p = sections.enum.flatMap (fun js =>
      [Annot.highlight (createHighlightAnnot js.2.position),
       Annot.numberBox (createNumberAnnot js.1
         (js.2.position.x1 + 5, js.2.position.y1 - 15))]) := by
  rw [pageAnnots, foldl_append_acc]
  rfl

/-- Every section of the document contributes its highlight and numbered
marker to the annot list of EVERY output page. -/
theorem pageAnnots_mem (sections : List PDFSection) (p j : Nat) (s : PDFSection)
    (hj : sections[j]? = some s) :
    Annot.highlight (createHighlightAnnot s.position) ∈ pageAnnots sections p ∧
    Annot.numberBox (createNumberAnnot j (s.position.x1 + 5, s.position.y1 - 15)) ∈
      pageAnnots sections p := by
  rw [pageAnnots_eq]
  have hmem : (j, s) ∈ sections.enum := List.mk_mem_enum_iff_getElem?.mpr hj
  exact ⟨List.mem_flatMap.mpr ⟨(j, s), hmem, by simp⟩,
         List.mem_flatMap.mpr ⟨(j, s), hmem, by simp⟩⟩

theorem eq_start_of_mem_map {l : List Nat} {e : Ev} (h : e ∈ l.map Ev.start) :
    ∃ n, n ∈ l ∧ e = Ev.start n := by
  rcases List.mem_map.mp h with ⟨x, hx, rfl⟩
  exact ⟨x, hx, rfl⟩

theorem eq_awaitTask_of_mem_map {l : List Nat} {e : Ev} (h : e ∈ l.map Ev.awaitTask) :
    ∃ n, n ∈ l ∧ e = Ev.awaitTask n := by
  rcases List.mem_map.mp h with ⟨x, hx, rfl⟩
  exact ⟨x, hx, rfl⟩

/-- A `start` event can only sit in the first block of the trace. -/
theorem trace_start_lt (sections : List PDFSection) (i a : Nat)
    (h : (summaryTrace sections)[i]? = some (Ev.start a)) :
    i < (scheduledIdxs sections).length := by
  by_contra hge
  push_neg at hge
  rw [summaryTrace, List.getElem?_append_right (by simpa using hge)] at h
  have hmem := List.getElem?_mem h
  rcases List.mem_append.mp hmem with hA | hB
  · rcases eq_awaitTask_of_mem_map hA with ⟨n, _, hn⟩
    exact Ev.noConfusion hn
  · simp at hB

/-- An `awaitTask` event can only sit in the middle block of the trace. -/
theorem trace_awaitTask_bounds (sections : List PDFSection) (j b : Nat)
    (h : (summaryTrace sections)[j]? = some (Ev.awaitTask b)) :
    (scheduledIdxs sections).length ≤ j ∧
      j < 2 * (scheduledIdxs sections).length := by
  constructor
  · by_contra hlt
    push_neg at hlt
    rw [summaryTrace, List.getElem?_append_left (by simpa using hlt)] at h
    have hmem := List.getElem?_mem h
    rcases eq_start_of_mem_map hmem with ⟨n, _, hn⟩
    exact Ev.noConfusion hn
  · by_contra hge
    push_neg at hge
    have h1 : (List.map Ev.start (scheduledIdxs sections)).length ≤ j := by
      simp; omega
    have h2 : (List.map Ev.awaitTask (scheduledIdxs sections)).length ≤
        j - (List.map Ev.start (scheduledIdxs sections)).length := by
      simp; omega
    rw [summaryTrace, List.getElem?_append_right h1,
      List.getElem?_append_right h2] at h
    have hmem := List.getElem?_mem h
    simp at hmem

/-- The `compose` event sits after all `start` and `awaitTask` events. -/
theorem trace_compose_eq (sections : List PDFSection) (k : Nat)
    (h : (summaryTrace sections)[k]? = some Ev.compose) :
    k = 2 * (scheduledIdxs sections).length := by
  have hk : k < (summaryTrace sections).length := by
    rcases List.getElem?_eq_some.mp h with ⟨hlt, _⟩
    exact hlt
  have hlen : (summaryTrace sections).length =
      2 * (scheduledIdxs sections).length + 1 := by
    simp [summaryTrace]
    omega
  by_contra hne
  have hklt : k < 2 * (scheduledIdxs sections).length := by omega
  by_cases hc : k < (scheduledIdxs sections).length
  · rw [summaryTrace, List.getElem?_append_left (by simpa using hc)] at h
    have hmem := List.getElem?_mem h
    rcases eq_start_of_mem_map hmem with ⟨n, _, hn⟩
    exact Ev.noConfusion hn
  · push_neg at hc
    rw [summaryTrace, List.getElem?_append_right (by simpa using hc),
      List.getElem?_append_left (by simp; omega)] at h
    have hmem := List.getElem?_mem h
    rcases eq_awaitTask_of_mem_map hmem with ⟨n, _, hn⟩
    exact Ev.noConfusion hn

/-! ## Claims -/

/-- Claim C1 counterexample.  Three fragments on one page at `y0 = 0`, `y0 = 19`
and `y0 = 38`: the second and third fragments have `|y0 − y0| = 19 < 20`,
yet the builder puts them into different sections (the third fragment is
compared against the accumulator's `y0 = 0`, not against its neighbour), so
two fragments within the threshold need not share a Section. -/
theorem merge_within_threshold_can_split :
    |(19 : ℚ) - 38| < 20 ∧
    buildPage 0 [⟨"a", ⟨0, 0, 1, 1⟩⟩, ⟨"b", ⟨0, 19, 1, 20⟩⟩, ⟨"c", ⟨0, 38, 1, 39⟩⟩] =
      [{ text := "a b", page := 0, position := ⟨0, 0, 1, 20⟩, summary := "" },
       { text := "c", page := 0, position := ⟨0, 38, 1, 39⟩, summary := "" }] := by
  constructor
  · norm_num
  · norm_num [buildPage, groupStep, boxUnion, pyStrip, stripList]
    decide

/-- Claim C1 (amended): if a page's fragment stream consists of exactly two
fragments whose `y0` coordinates differ by strictly less than 20, the
builder produces a single Section holding both texts, and that Section's
bounding box is the coordinate-wise min/max union of the two fragment
boxes. -/
theorem two_fragment_page_merge (f g : Fragment) (p : Nat)
    (h : |f.box.y0 - g.box.y0| < 20) :
    buildPage p [f, g] =
      [{ text := pyStrip (" " ++ f.text ++ " " ++ g.text), page := p,
         position := boxUnion f.box g.box, summary := "" }] := by
  have h0 : |f.box.y0 - f.box.y0| < (20 : ℚ) := by simp
  have h1 : |g.box.y0 - f.box.y0| < (20 : ℚ) := by rw [abs_sub_comm]; exact h
  simp only [buildPage, List.foldl, groupStep, Option.getD_none, Option.getD_some,
    boxUnion_self, str_empty_append, if_pos h0, if_pos h1]
  rw [if_neg (str_append_ne_empty_left _ _
    (str_append_ne_empty_left _ _ (space_append_ne_empty f.text)))]
  simp

/-- Claim C1 witness: `two_fragment_page_merge` at two concrete fragments. -/
theorem two_fragment_page_merge_witness :
    |(100 : ℚ) - 101| < 20 ∧
    buildPage 0 [⟨"hello", ⟨10, 100, 60, 112⟩⟩, ⟨"world", ⟨10, 101, 55, 113⟩⟩] =
      [{ text := pyStrip (" " ++ "hello" ++ " " ++ "world"), page := 0,
         position := boxUnion ⟨10, 100, 60, 112⟩ ⟨10, 101, 55, 113⟩, summary := "" }] :=
  ⟨by norm_num,
   two_fragment_page_merge ⟨"hello", ⟨10, 100, 60, 112⟩⟩ ⟨"world", ⟨10, 101, 55, 113⟩⟩ 0
     (by norm_num)⟩

/-- Claim C2 (code bug, evaluated at the failing input).  Two sections, one on
page 0 and one on page 1, both with nonempty summaries: the annot list built
for output page 0 contains the highlight and the numbered marker of BOTH
sections — the highlight/marker creation at `pdf_utils.py:339-345` sits
outside the `if section.page == i` test, so page 0 receives annots for the
page-1 section, contradicting the claim that no annot for a section on a
different page is attached to page p (the marker also carries the 0-based
index `j`, not a 1-based number). -/
theorem annots_attached_across_pages :
    (1 : Nat) ≠ 0 ∧
    pageAnnots [{ text := "alpha", page := 0, position := ⟨0, 700, 50, 712⟩, summary := "S0" },
                { text := "beta", page := 1, position := ⟨0, 600, 50, 612⟩, summary := "S1" }] 0 =
      [Annot.highlight (createHighlightAnnot ⟨0, 700, 50, 712⟩),
       Annot.numberBox (createNumberAnnot 0 (55, 697)),
       Annot.highlight (createHighlightAnnot ⟨0, 600, 50, 612⟩),
       Annot.numberBox (createNumberAnnot 1 (55, 597))] := by
  constructor
  · decide
  · norm_num [pageAnnots, List.enum, List.enumFrom]

/-- Claim C3 counterexample.  A summary with no newline, `"hello"`: the
title/body split yields title `"hello"` and body `"hello"` — the title is
the whole summary (with `"Title: "` occurrences removed), not the empty
string the claim requires. -/
theorem no_newline_title_not_empty :
    pySplitLines "hello" = ["hello"] ∧
    splitSummary "hello" = ("hello", "hello") ∧
    ("hello" : String) ≠ "" := by
  refine ⟨by decide, by decide, by decide⟩

/-- Claim C3 (amended): for every summary string containing no newline (so that
splitting at newlines returns the whole string as the only part), the
sidebar renderer takes the whole summary as the body, and as the title it
takes the whole summary with every occurrence of `"Title: "` removed — the
title is not empty in general. -/
theorem no_newline_title_body (s : String) (h : pySplitLines s = [s]) :
    splitSummary s = (pyReplace "Title: " "" s, s) := by
  simp [splitSummary, h]

/-- Claim C3 witness: `no_newline_title_body` at the newline-free summary
`"just one line"`. -/
theorem no_newline_title_body_witness :
    pySplitLines "just one line" = ["just one line"] ∧
    splitSummary "just one line" = (pyReplace "Title: " "" "just one line", "just one line") :=
  ⟨by decide, no_newline_title_body "just one line" (by decide)⟩

/-- Claim C4 (code bug, evaluated at the failing input).  A document with a single
section (nonempty summary, page 0): the numbered marker annot created for it
carries `/Contents` `"0"` (the 0-based loop index `j` is passed to
`create_number_annotation` at `pdf_utils.py:344`), while the sidebar entry
for the very same section displays `"1"` (`str(i + 1)`,
`pdf_utils.py:173`).  So a section IS labeled `'0'`, and marker and sidebar
disagree, contradicting the claim that both show the 1-based number. -/
theorem marker_number_zero_based :
    pageAnnots [{ text := "alpha", page := 0, position := ⟨0, 700, 50, 712⟩, summary := "S0" }] 0 =
      [Annot.highlight (createHighlightAnnot ⟨0, 700, 50, 712⟩),
       Annot.numberBox (createNumberAnnot 0 (55, 697))] ∧
    (createNumberAnnot 0 (55, 697)).contents = "0" ∧
    (sidebarEntries (fun _ => 1) (fun _ => 1)
        (pageSections [{ text := "alpha", page := 0, position := ⟨0, 700, 50, 712⟩,
                         summary := "S0" }] 0)).map SidebarEntry.number = ["1"] ∧
    ("0" : String) ≠ "1" := by
  refine ⟨by norm_num [pageAnnots, List.enum, List.enumFrom], by decide, ?_, by decide⟩
  norm_num [sidebarEntries, pageSections, List.enum, List.enumFrom, splitSummary]
  decide

/-- Claim C5: a section whose text has at most 20 whitespace-split words gets its
summary set to its text exactly, for every oracle (so the result does not
depend on any external call), and its index is not among the indices for
which the dispatch loop schedules an external summarizer call. -/
theorem short_section_passthrough (sections : List PDFSection)
    (o : Nat → Except String String) (j : Nat) (s : PDFSection)
    (hj : sections[j]? = some s) (hw : wordCount s.text ≤ 20) :
    (assignSummaries o sections)[j]? = some { s with summary := s.text } ∧
    j ∉ scheduledIdxs sections := by
  have hnot : ¬ 20 < wordCount s.text := Nat.not_lt.mpr hw
  constructor
  · rw [assignSummaries, List.getElem?_map, List.getElem?_enum, hj]
    simp [hnot]
  · intro hmem
    rw [scheduledIdxs] at hmem
    rcases List.mem_map.mp hmem with ⟨js, hjs, hfst⟩
    rcases List.mem_filter.mp hjs with ⟨hmem2, hp⟩
    rcases js with ⟨j', s'⟩
    have hget : sections[j']? = some s' := List.mk_mem_enum_iff_getElem?.mp hmem2
    cases hfst
    rw [hj] at hget
    cases Option.some.injEq .. ▸ hget
    exact hnot (of_decide_eq_true hp)

/-- A 3-word section, used to instantiate the summarizer theorems. -/
def secShort : PDFSection :=
  { text := "three small words", page := 0, position := ⟨0, 0, 9, 9⟩, summary := "" }

/-- A 21-word section, above the summarization threshold. -/
def secLong : PDFSection :=
  { text := "a a a a a a a a a a a a a a a a a a a a a", page := 0,
    position := ⟨0, 0, 9, 9⟩, summary := "" }

/-- An oracle on which every external summarizer call fails. -/
def oFail : Nat → Except String String := fun _ => Except.error "network down"

/-- Claim C5 witness: `short_section_passthrough`: a 3-word section. -/
theorem short_section_passthrough_witness :
    ([secLong, secShort][1]? = some secShort) ∧ wordCount secShort.text ≤ 20 ∧
    ((assignSummaries oFail [secLong, secShort])[1]? =
        some { secShort with summary := secShort.text } ∧
      1 ∉ scheduledIdxs [secLong, secShort]) :=
  ⟨rfl, by decide,
   short_section_passthrough [secLong, secShort] oFail 1 secShort rfl (by decide)⟩

/-- Claim C6: for every batch of sections and every oracle outcome, the assignment
loop returns a batch of the same length (no failure aborts it, and the
adapter is a total function — no exception escapes); the section at any
index gets its summary set, to the summarizer result if it was scheduled and
to its own text otherwise; and whenever the scheduled call failed the
assigned summary is exactly the sentinel `"Error generating summary"`. -/
theorem summarizer_failure_sentinel (sections : List PDFSection)
    (o : Nat → Except String String) (j : Nat) (s : PDFSection)
    (hj : sections[j]? = some s) :
    (assignSummaries o sections).length = sections.length ∧
    (assignSummaries o sections)[j]? =
      some { s with summary :=
        if 20 < wordCount s.text then summarizeText (o j) else s.text } ∧
    (∀ e, o j = Except.error e → summarizeText (o j) = "Error generating summary") ∧
    (∀ c, o j = Except.ok c → summarizeText (o j) = pyStrip c) := by
  refine ⟨?_, ?_, ?_, ?_⟩
  · simp [assignSummaries]
  · rw [assignSummaries, List.getElem?_map, List.getElem?_enum, hj]
    by_cases hc : 20 < wordCount s.text <;> simp [hc]
  · intro e he
    rw [he]
    rfl
  · intro c hc
    rw [hc]
    rfl

/-- Claim C6 witness: `summarizer_failure_sentinel`: a batch of one long section
(21 words) whose call fails, and one short section; the failing section's
assigned summary evaluates to the sentinel string. -/
theorem summarizer_failure_sentinel_witness :
    ([secLong, secShort][0]? = some secLong) ∧
    ((assignSummaries oFail [secLong, secShort]).length = [secLong, secShort].length ∧
     (assignSummaries oFail [secLong, secShort])[0]? =
       some { secLong with
              summary := if 20 < wordCount secLong.text then summarizeText (oFail 0)
                         else secLong.text } ∧
     (∀ e, oFail 0 = Except.error e → summarizeText (oFail 0) = "Error generating summary") ∧
     (∀ c, oFail 0 = Except.ok c → summarizeText (oFail 0) = pyStrip c)) ∧
    (assignSummaries oFail [secLong, secShort])[0]? =
      some { secLong with summary := "Error generating summary" } :=
  ⟨rfl, summarizer_failure_sentinel [secLong, secShort] oFail 0 secLong rfl, by decide⟩

/-- Claim C7: the composition loop adds every one of the K original pages to the
output in their original order — the output has exactly K pages and the i-th
output page carries the i-th original page's content, whatever the sections
(and hence annotation and sidebar activity) are. -/
theorem compose_preserves_pages {α : Type} (wT wC : String → ℕ)
    (pages : List α) (sections : List PDFSection) :
    (composePages wT wC pages sections).length = pages.length ∧
    (composePages wT wC pages sections).map OutputPage.content = pages := by
  constructor
  · simp [composePages]
  · rw [composePages, List.map_map]
    have : (OutputPage.content (α := α) ∘ fun ip =>
        { content := ip.2, annots := pageAnnots sections ip.1,
          sidebar := if pageSections sections ip.1 = [] then []
                     else sidebarEntries wT wC (pageSections sections ip.1) }) =
        Prod.snd := rfl
    rw [this, List.enum_map_snd]

/-! ## Word-wrap lemmas (C8) -/

/-- Fold a word list onto a seed line, one space between words — the line the
greedy wrap builds when every word fits. -/
def seedJoin (cur : String) (ws : List String) : String :=
  ws.foldl (fun a b => a ++ " " ++ b) cur

/-- The words of a list joined by single spaces. -/
def joinSp : List String → String
  | [] => ""
  | w :: ws => seedJoin w ws

theorem strWidth_append (cw : Char → ℕ) (a b : String) :
    strWidth cw (a ++ b) = strWidth cw a + strWidth cw b := by
  simp [strWidth, String.data_append]

theorem strWidth_le_seedJoin (cw : Char → ℕ) (ws : List String) (cur : String) :
    strWidth cw cur ≤ strWidth cw (seedJoin cur ws) := by
  induction ws generalizing cur with
  | nil => exact le_refl _
  | cons w ws ih =>
    calc strWidth cw cur ≤ strWidth cw (cur ++ " " ++ w) := by
          rw [strWidth_append, strWidth_append]; omega
      _ ≤ strWidth cw (seedJoin (cur ++ " " ++ w) ws) := ih _
      _ = strWidth cw (seedJoin cur (w :: ws)) := rfl

theorem seedJoin_ne_empty (ws : List String) (cur : String) (h : cur ≠ "") :
    seedJoin cur ws ≠ "" := by
  induction ws generalizing cur with
  | nil => exact h
  | cons w ws ih =>
    exact ih _ (str_append_ne_empty_left _ _ (str_append_ne_empty_left _ _ h))

/-- When every extension of the running line fits, the wrap fold just joins
all remaining words onto the running line, emitting nothing. -/
theorem wrap_fold_all_fit (cw : Char → ℕ) (mw : ℕ) (ws : List String)
    (cur : String) (acc : List String) (hcur : cur ≠ "")
    (hfit : strWidth cw (seedJoin cur ws) ≤ mw) :
    ws.foldl (wrapStep (strWidth cw) mw) (acc, cur) = (acc, seedJoin cur ws) := by
  induction ws generalizing cur with
  | nil => rfl
  | cons w ws ih =>
    have hstep : wrapStep (strWidth cw) mw (acc, cur) w = (acc, cur ++ " " ++ w) := by
      rw [wrapStep]
      simp only [if_pos hcur]
      rw [if_pos]
      exact le_trans (strWidth_le_seedJoin cw ws (cur ++ " " ++ w)) hfit
    rw [List.foldl_cons, hstep]
    exact ih _ (str_append_ne_empty_left _ _ (str_append_ne_empty_left _ _ hcur)) hfit

theorem pySplit_ne_empty {s w : String} (h : w ∈ pySplit s) : w ≠ "" := by
  rw [pySplit] at h
  rcases List.mem_map.mp h with ⟨lw, hlw, rfl⟩
  have hne : lw ≠ [] := by
    have := (List.mem_filter.mp hlw).2
    simpa using this
  intro h0
  exact hne (congrArg String.data h0)

/-- Claim C8 counterexample.  Under the unit width measure and column width 10:
the empty string has width 0 ≤ 10 but wraps to zero lines, not one; and
`"a  b"` (two inner spaces, width 4 ≤ 10) wraps to the single line
`"a b"`, which differs from the trimmed input `"a  b"` — whitespace runs
are collapsed by the word split, so the output line need not equal the
trimmed input. -/
theorem wrap_narrow_input_not_trimmed :
    strWidth (fun _ => 1) "" = 0 ∧
    wrapLine (strWidth (fun _ => 1)) 10 "" = [] ∧
    strWidth (fun _ => 1) "a  b" ≤ 10 ∧
    pyStrip "a  b" = "a  b" ∧
    wrapLine (strWidth (fun _ => 1)) 10 "a  b" = ["a b"] ∧
    ("a b" : String) ≠ "a  b" := by
  refine ⟨by decide, by decide, by decide, by decide, by decide, by decide⟩

/-- Claim C8 (amended): for every input string with at least one whitespace-split
word, if the rendered width of the input's words joined by single spaces is
at most the available column width, the greedy wrap yields exactly one line,
equal to those words joined by single spaces (this equals the trimmed input
exactly when the trimmed input has single spaces between its words). -/
theorem wrap_single_line (cw : Char → ℕ) (mw : ℕ) (s : String)
    (hne : pySplit s ≠ [])
    (hfit : strWidth cw (joinSp (pySplit s)) ≤ mw) :
    wrapLine (strWidth cw) mw s = [joinSp (pySplit s)] := by
  rcases List.exists_cons_of_ne_nil hne with ⟨w, ws, hws⟩
  have hwne : w ≠ "" := pySplit_ne_empty (s := s) (by rw [hws]; exact List.mem_cons_self _ _)
  rw [wrapLine, hws]
  rw [hws] at hfit
  have hfit' : strWidth cw (seedJoin w ws) ≤ mw := hfit
  have hstep0 : wrapStep (strWidth cw) mw ([], "") w = ([], w) := by
    rw [wrapStep]
    simp only [ne_eq, not_true_eq_false, if_false, str_empty_append]
    rw [if_pos (le_trans (strWidth_le_seedJoin cw ws w) hfit')]
  rw [List.foldl_cons, hstep0,
    wrap_fold_all_fit cw mw ws w [] hwne hfit']
  simp only [ne_eq]
  rw [if_pos (by simpa using seedJoin_ne_empty ws w hwne)]
  rfl

/-- Claim C8 witness: `wrap_single_line`: `"hello world"` under the unit width
measure and column width 100. -/
theorem wrap_single_line_witness :
    pySplit "hello world" ≠ [] ∧
    strWidth (fun _ => 1) (joinSp (pySplit "hello world")) ≤ 100 ∧
    wrapLine (strWidth (fun _ => 1)) 100 "hello world" = [joinSp (pySplit "hello world")] :=
  ⟨by decide, by decide,
   wrap_single_line (fun _ => 1) 100 "hello world" (by decide) (by decide)⟩

/-- Claim C9: in the event trace of `process_pdf_with_summaries`, every task
creation precedes every await, every await precedes composition, every
awaited task was started, a task is started for a section exactly when its
word count exceeds 20, and when composition runs every section's summary
has been assigned (the scheduled ones to the summarizer result, the rest to
their own text). -/
theorem summary_schedule_order (sections : List PDFSection) (i j k a b : Nat)
    (hi : (summaryTrace sections)[i]? = some (Ev.start a))
    (hj : (summaryTrace sections)[j]? = some (Ev.awaitTask b))
    (hk : (summaryTrace sections)[k]? = some Ev.compose) :
    i < j ∧ j < k ∧
    Ev.start b ∈ summaryTrace sections ∧
    (∀ (n : Nat) (s : PDFSection), sections[n]? = some s →
      (Ev.start n ∈ summaryTrace sections ↔ 20 < wordCount s.text)) ∧
    (∀ (o : Nat → Except String String) (n : Nat) (s : PDFSection),
      sections[n]? = some s →
      (assignSummaries o sections)[n]? =
        some { s with
               summary := if 20 < wordCount s.text then summarizeText (o n)
                          else s.text }) := by
  have h1 := trace_start_lt sections i a hi
  have h2 := trace_awaitTask_bounds sections j b hj
  have h3 := trace_compose_eq sections k hk
  have hstart_mem : ∀ {n : Nat}, Ev.start n ∈ summaryTrace sections ↔
      n ∈ scheduledIdxs sections := by
    intro n
    constructor
    · intro hmem
      rcases List.mem_append.mp hmem with hA | hBC
      · rcases eq_start_of_mem_map hA with ⟨m, hm, he⟩
        cases he
        exact hm
      · rcases List.mem_append.mp hBC with hB | hC
        · rcases eq_awaitTask_of_mem_map hB with ⟨m, _, he⟩
          exact Ev.noConfusion he
        · simp at hC
    · intro hmem
      exact List.mem_append_left _ (List.mem_map.mpr ⟨n, hmem, rfl⟩)
  refine ⟨by omega, by omega, ?_, ?_, ?_⟩
  · apply hstart_mem.mpr
    have hmem := List.getElem?_mem hj
    rcases List.mem_append.mp hmem with hA | hBC
    · rcases eq_start_of_mem_map hA with ⟨m, _, he⟩
      exact Ev.noConfusion he
    · rcases List.mem_append.mp hBC with hB | hC
      · rcases eq_awaitTask_of_mem_map hB with ⟨m, hm, he⟩
        cases he
        exact hm
      · simp at hC
  · intro n s hn
    rw [hstart_mem]
    exact mem_scheduledIdxs sections n s hn
  · intro o n s hn
    exact assignSummaries_getElem sections o n s hn

/-- Claim C9 witness: `summary_schedule_order`: a single 21-word section; its
trace is `[start 0, awaitTask 0, compose]`. -/
theorem summary_schedule_order_witness :
    ((summaryTrace [secLong])[0]? = some (Ev.start 0) ∧
     (summaryTrace [secLong])[1]? = some (Ev.awaitTask 0) ∧
     (summaryTrace [secLong])[2]? = some Ev.compose) ∧
    ((0 : Nat) < 1 ∧ (1 : Nat) < 2 ∧
     Ev.start 0 ∈ summaryTrace [secLong] ∧
     (∀ (n : Nat) (s : PDFSection), [secLong][n]? = some s →
       (Ev.start n ∈ summaryTrace [secLong] ↔ 20 < wordCount s.text)) ∧
     (∀ (o : Nat → Except String String) (n : Nat) (s : PDFSection),
       [secLong][n]? = some s →
       (assignSummaries o [secLong])[n]? =
         some { s with
                summary := if 20 < wordCount s.text then summarizeText (o n)
                           else s.text })) :=
  ⟨⟨by decide, by decide, by decide⟩,
   summary_schedule_order [secLong] 0 1 2 0 0 (by decide) (by decide) (by decide)⟩

/-- The empty-text section produced by a whitespace-only fragment run. -/
def emptySec : PDFSection :=
  { text := "", page := 0, position := ⟨0, 0, 12, 12⟩, summary := "" }

/-- Claim C10: the extractor can emit a Section with empty text (a whitespace-only
fragment run passes the nonemptiness test on the untrimmed buffer, and the
trim then empties it); every empty-text section has word count 0, gets its
(empty) text as summary with no external call scheduled, never enters any
page's `page_sections` list (and even when handed to the sidebar renderer
directly produces no entry), yet its highlight and numbered marker annot are
still created on every output page. -/
theorem empty_text_section_pipeline (sections : List PDFSection)
    (o : Nat → Except String String) (j : Nat) (s : PDFSection)
    (hj : sections[j]? = some s) (hempty : s.text = "") :
    buildPage 0 [⟨" ", ⟨0, 0, 12, 12⟩⟩] = [emptySec] ∧
    wordCount s.text = 0 ∧
    (assignSummaries o sections)[j]? = some { s with summary := s.text } ∧
    j ∉ scheduledIdxs sections ∧
    (∀ p, (j, { s with summary := s.text }) ∉
      pageSections (assignSummaries o sections) p) ∧
    (∀ (wT wC : String → ℕ) (idx : Nat),
      sidebarEntries wT wC [(idx, { s with summary := s.text })] = []) ∧
    (∀ p, Annot.highlight (createHighlightAnnot s.position) ∈
            pageAnnots (assignSummaries o sections) p ∧
          Annot.numberBox (createNumberAnnot j
              (s.position.x1 + 5, s.position.y1 - 15)) ∈
            pageAnnots (assignSummaries o sections) p) := by
  have h0 : wordCount s.text = 0 := by rw [hempty]; rfl
  have h20 : ¬ 20 < wordCount s.text := by omega
  have h3 : (assignSummaries o sections)[j]? = some { s with summary := s.text } := by
    rw [assignSummaries_getElem sections o j s hj, if_neg h20]
  refine ⟨?_, h0, h3, ?_, ?_, ?_, ?_⟩
  · rw [emptySec]
    norm_num [buildPage, groupStep, boxUnion, pyStrip, stripList]
    decide
  · intro hmem
    exact h20 ((mem_scheduledIdxs sections j s hj).mp hmem)
  · intro p hmem
    have hp := (List.mem_filter.mp hmem).2
    simp [hempty] at hp
  · intro wT wC idx
    simp [sidebarEntries, List.enum, List.enumFrom, hempty]
  · intro p
    have hm := pageAnnots_mem (assignSummaries o sections) p j
      { s with summary := s.text } h3
    exact hm

/-- Claim C10 witness: `empty_text_section_pipeline` at the concrete empty-text
section. -/
theorem empty_text_section_pipeline_witness :
    ([emptySec][0]? = some emptySec ∧ emptySec.text = "") ∧
    (buildPage 0 [⟨" ", ⟨0, 0, 12, 12⟩⟩] = [emptySec] ∧
     wordCount emptySec.text = 0 ∧
     (assignSummaries oFail [emptySec])[0]? =
       some { emptySec with summary := emptySec.text } ∧
     0 ∉ scheduledIdxs [emptySec] ∧
     (∀ p, (0, { emptySec with summary := emptySec.text }) ∉
       pageSections (assignSummaries oFail [emptySec]) p) ∧
     (∀ (wT wC : String → ℕ) (idx : Nat),
       sidebarEntries wT wC [(idx, { emptySec with summary := emptySec.text })] = []) ∧
     (∀ p, Annot.highlight (createHighlightAnnot emptySec.position) ∈
             pageAnnots (assignSummaries oFail [emptySec]) p ∧
           Annot.numberBox (createNumberAnnot 0
               (emptySec.position.x1 + 5, emptySec.position.y1 - 15)) ∈
             pageAnnots (assignSummaries oFail [emptySec]) p)) :=
  ⟨⟨rfl, rfl⟩, empty_text_section_pipeline [emptySec] oFail 0 emptySec rfl rfl⟩

end PdfCompressor
